import Mathlib

/-!
Verification of the OpenMetadata Doris connection builder
(`ingestion/src/metadata/ingestion/source/database/doris/connection.py`)
and the Trino profiler sampler
(`ingestion/src/metadata/profiler/processor/sampler/sqlalchemy/trino/sampler.py`)
against their natural-language specification, via a shallow embedding.
-/

namespace OpenMetadata

/-! ## Trino sampler: data model

A SQLAlchemy column carries a name and a declared type.  Type tags are
modelled as strings, since only set-membership in `FLOAT_SET` matters. -/

structure Column where
  name : String
  type : String
deriving DecidableEq, Repr

structure Table where
  name : String
  columns : List Column
deriving DecidableEq, Repr

/-- Modelled from the spec: `FLOAT_SET` from `metadata.profiler.orm.registry`
(not part of the excerpt) is "a static, closed set of numeric type tags
considered floating-point for the purpose of NaN filtering.  Membership test
only; never mutated at runtime."  Concrete members stand in for the registry
classes; all theorems are stated via membership hypotheses, so they do not
depend on the particular tags chosen here. -/
def FLOAT_SET : List String := ["Float", "Double", "Real"]

/-- Modelled from the spec: `RANDOM_LABEL` from
`metadata.profiler.processor.handle_partition` (not part of the excerpt) is
"the reserved random-assignment label (a synthetic column added by the base
sampler to hold per-row random ranking values)". -/
def RANDOM_LABEL : String := "random"

/-- The query entity: either the full table or a single column projection
(`entity = self.table if column is None else column`). -/
inductive Entity where
  | table (t : Table)
  | column (c : Column)
deriving DecidableEq, Repr

/-- A `text("is_nan(<name>) = False")` clause, kept structured so that it can
be both rendered to the exact source text and evaluated on rows. -/
structure NanClause where
  colName : String
deriving DecidableEq, Repr

/-- The literal SQL fragment the source builds for a float column. -/
def NanClause.render (c : NanClause) : String :=
  "is_nan(" ++ c.colName ++ ") = False"

/-- The query object produced by `self.client.query(entity, label)` followed
by `.where(or_(...))`.  `whereClauses` is the SQLAlchemy `or_`
disjunction: an empty clause list contributes no WHERE clause at all
(the query is unfiltered), a non-empty list filters rows by the
inclusive-or of its members. -/
structure SampleQuery where
  entity : Entity
  label : Option String
  whereClauses : List NanClause
deriving DecidableEq, Repr

/-- `self.client.query(entity, label)`: a fresh, unfiltered projection. -/
def clientQuery (entity : Entity) (label : Option String) : SampleQuery :=
  { entity := entity, label := label, whereClauses := [] }

/-- SQLAlchemy `or_(*clauses)`: the disjunction is just its clause list. -/
def sqlOr (clauses : List NanClause) : List NanClause := clauses

/-- `.where(disjunction)`: attach the disjunction to the query.  An empty
`or_()` contributes nothing, matching SQLAlchemy, where an empty
`BooleanClauseList` renders no WHERE clause. -/
def SampleQuery.whereOr (q : SampleQuery) (disj : List NanClause) : SampleQuery :=
  { q with whereClauses := q.whereClauses ++ disj }

/-- Row semantics used to settle the filter-behaviour claims: a row is a map
from column name to "this value is NaN".  The clause
`is_nan(c) = False` holds on a row exactly when the row's `c` is not NaN. -/
def NanClause.eval (c : NanClause) (row : String → Bool) : Bool :=
  !(row c.colName)

/-- A row passes the query's filter iff the where-disjunction is absent
(empty) or at least one of its clauses holds. -/
def SampleQuery.rowPasses (q : SampleQuery) (row : String → Bool) : Bool :=
  q.whereClauses.isEmpty || q.whereClauses.any (fun c => c.eval row)

/-! ## Trino sampler: `TrinoSampler._base_sample_query`

```python
def _base_sample_query(self, column, label=None):
    sqa_columns = [col for col in inspect(self.table).c if col.name != RANDOM_LABEL]
    entity = self.table if column is None else column
    return self.client.query(entity, label).where(
        or_(
            *[
                text(f"is_nan(\x7bcols.name\x7d) = False")
                for cols in sqa_columns
                if type(cols.type) in FLOAT_SET
            ]
        )
    )
```
-/

def base_sample_query (table : Table) (column : Option Column)
    (label : Option String) : SampleQuery :=
  let sqa_columns := table.columns.filter (fun col => col.name ≠ RANDOM_LABEL)
  let entity := match column with
    | none => Entity.table table
    | some c => Entity.column c
  (clientQuery entity label).whereOr
    (sqlOr ((sqa_columns.filter (fun cols => cols.type ∈ FLOAT_SET)).map
      (fun cols => NanClause.mk cols.name)))

/-! ## Trino sampler: `TrinoSampler.__init__`

```python
def __init__(self, *args, **kwargs):
    from trino.sqlalchemy.dialect import TrinoDialect
    TrinoDialect._json_deserializer = None
    super().__init__(*args, **kwargs)
```

The dialect's class-level deserialization hook is the only state the
constructor touches that is in scope; `super().__init__` belongs to the
generic base sampler, an out-of-scope collaborator. -/

/-- The process-wide mutable state of the Trino dialect class: its JSON
deserialization hook, `None` when disabled. -/
structure TrinoDialect where
  json_deserializer : Option String
deriving DecidableEq, Repr

/-- The state effect of `TrinoSampler.__init__` on the dialect class:
assign `None` to `TrinoDialect._json_deserializer` (before delegating to the
base initializer, which does not touch the dialect). -/
def trinoSamplerInit (d : TrinoDialect) : TrinoDialect :=
  { d with json_deserializer := none }

/-! ## Doris connection: data model

`DorisConnection` is a generated pydantic model that is not part of the
excerpt; its shape is modelled from the spec: the descriptor "holds
host/credentials, an optional TLS bundle {caCertificate, sslCertificate,
sslKey}, and an optional free-form map of connection arguments".  TLS fields
are optional strings; Python truthiness makes both `None` and the empty
string count as "not configured". -/

structure SslConfig where
  caCertificate : Option String
  sslCertificate : Option String
  sslKey : Option String
deriving DecidableEq, Repr

/-- A value stored in the connection-arguments map: either a plain string or
a nested string-to-string map (the `"ssl"` sub-map). -/
inductive ArgValue where
  | str (s : String)
  | dict (m : List (String × String))
deriving DecidableEq, Repr

/-- Modelled from the spec: the connection descriptor, with the TLS bundle
and the optional free-form connection-arguments map (host/credentials and
the other generated fields are not read by `get_connection` and are
omitted). -/
structure DorisConnection where
  ssl : SslConfig
  connectionArguments : Option (List (String × ArgValue))
deriving DecidableEq, Repr

/-- Python truthiness of an optional string: `None` and `""` are falsy. -/
def truthy : Option String → Bool
  | none => false
  | some s => s != ""

/-! Python `dict` semantics on insertion-ordered association lists:
`dictSet` updates the first matching key in place (keeping its position) or
appends a new entry at the end; `dictGet` is `dict.get`. -/

def dictSet {α : Type} (m : List (String × α)) (k : String) (v : α) :
    List (String × α) :=
  match m with
  | [] => [(k, v)]
  | p :: rest => if p.1 = k then (k, v) :: rest else p :: dictSet rest k v

def dictGet {α : Type} (m : List (String × α)) (k : String) : Option α :=
  match m with
  | [] => none
  | p :: rest => if p.1 = k then some p.2 else dictGet rest k

/-- Modelled from the spec: `init_empty_connection_arguments` "returns a
fresh empty map". -/
def init_empty_connection_arguments : List (String × ArgValue) := []

/-- `connection.connectionArguments.get("ssl", {})`: the existing `"ssl"`
sub-map, defaulting to empty.  A pre-existing `"ssl"` entry that is a plain
string would make the source raise on the first key assignment; theorems
about descriptors with arbitrary pre-existing arguments therefore assume
`sslEntryIsDict`. -/
def getSslArgs (args : List (String × ArgValue)) : List (String × String) :=
  match dictGet args "ssl" with
  | some (ArgValue.dict m) => m
  | some (ArgValue.str _) => []
  | none => []

/-- The `"ssl"` entry of the arguments map, when present, is a nested map
(not a plain string). -/
def sslEntryIsDict (args : Option (List (String × ArgValue))) : Bool :=
  match args with
  | none => true
  | some m =>
    match dictGet m "ssl" with
    | some (ArgValue.str _) => false
    | _ => true

/-! ## Doris connection: `get_connection`

```python
def get_connection(connection: DorisConnection) -> Engine:
    if (
        connection.ssl.__root__.caCertificate
        or connection.ssl.__root__.sslCertificate
        or connection.ssl.__root__.sslKey
    ):
        connection.connectionArguments = (
            connection.connectionArguments or init_empty_connection_arguments()
        )
        ssl_args = connection.connectionArguments.get("ssl", \x7b\x7d)
        if connection.ssl.__root__.caCertificate:
            ssl_args["ssl_ca"] = connection.ssl.__root__.caCertificate
        if connection.ssl.__root__.sslCertificate:
            ssl_args["ssl_cert"] = connection.ssl.__root__.sslCertificate
        if connection.ssl.__root__.sslKey:
            ssl_args["ssl_key"] = connection.ssl.__root__.sslKey
        connection.connectionArguments["ssl"] = ssl_args
    return create_generic_db_connection(
        connection=connection,
        get_connection_url_fn=get_connection_url_common,
        get_connection_args_fn=get_connection_args_common,
    )
```

The in-place mutation of the descriptor becomes explicit state passing: the
TLS-merging step (the `if` body above) is `mergeSslArgs`, and
`get_connection` returns the mutated descriptor together with the engine. -/

/-- One guarded assignment `if <field>: ssl_args[k] = v`. -/
def dictSetIf (cond : Bool) (m : List (String × String)) (k : String)
    (v : String) : List (String × String) :=
  if cond then dictSet m k v else m

/-- The three guarded key assignments of the merge step, applied in source
order (`ssl_ca`, then `ssl_cert`, then `ssl_key`) to the existing `"ssl"`
sub-map. -/
def mergedSsl (s0 : List (String × String)) (ssl : SslConfig) :
    List (String × String) :=
  dictSetIf (truthy ssl.sslKey)
    (dictSetIf (truthy ssl.sslCertificate)
      (dictSetIf (truthy ssl.caCertificate) s0 "ssl_ca"
        (ssl.caCertificate.getD ""))
      "ssl_cert" (ssl.sslCertificate.getD ""))
    "ssl_key" (ssl.sslKey.getD "")

/-- The TLS-merging step of `get_connection` (the body of its `if`). -/
def mergeSslArgs (connection : DorisConnection) : DorisConnection :=
  if truthy connection.ssl.caCertificate
      || truthy connection.ssl.sslCertificate
      || truthy connection.ssl.sslKey then
    let args := match connection.connectionArguments with
      | some a => a
      | none => init_empty_connection_arguments
    { connection with
      connectionArguments :=
        some (dictSet args "ssl"
          (ArgValue.dict (mergedSsl (getSslArgs args) connection.ssl))) }
  else
    connection

/-- Modelled from the spec: `create_generic_db_connection` is an
already-correct black box that "delegates engine construction to an
externally supplied URL-builder and argument-builder pair (injected as
function references), returning whatever engine object they produce"; the
engine records the descriptor and the two injected builders verbatim. -/
structure Engine where
  connection : DorisConnection
  url_fn : String
  args_fn : String
deriving DecidableEq, Repr

def create_generic_db_connection (connection : DorisConnection)
    (get_connection_url_fn : String) (get_connection_args_fn : String) :
    Engine :=
  { connection := connection, url_fn := get_connection_url_fn,
    args_fn := get_connection_args_fn }

/-- Modelled from the spec: tag for the common URL builder function. -/
def get_connection_url_common : String := "get_connection_url_common"

/-- Modelled from the spec: tag for the common arguments builder function. -/
def get_connection_args_common : String := "get_connection_args_common"

/-- `get_connection`: merge the TLS material into the connection arguments,
then delegate to the generic builder; returns the (possibly mutated)
descriptor together with the engine. -/
def get_connection (connection : DorisConnection) :
    DorisConnection × Engine :=
  let connection := mergeSslArgs connection
  (connection,
    create_generic_db_connection connection
      get_connection_url_common get_connection_args_common)

/-- The `"ssl"` sub-map of a descriptor's connection arguments (empty when
absent). -/
def sslMapOf (c : DorisConnection) : List (String × String) :=
  getSslArgs (c.connectionArguments.getD [])

end OpenMetadata

namespace OpenMetadata

/-! ## Shared dictionary lemmas -/

theorem dictGet_dictSet_self {α : Type} (m : List (String × α)) (k : String)
    (v : α) : dictGet (dictSet m k v) k = some v := by
  induction m with
  | nil => simp [dictSet, dictGet]
  | cons p rest ih =>
      by_cases h : p.1 = k <;> simp [dictSet, dictGet, h, ih]

theorem dictGet_dictSet_ne {α : Type} (m : List (String × α)) (k k' : String)
    (v : α) (h : k' ≠ k) : dictGet (dictSet m k v) k' = dictGet m k' := by
  induction m with
  | nil => simp [dictSet, dictGet, Ne.symm h]
  | cons p rest ih =>
      by_cases hp : p.1 = k <;>
        simp [dictSet, dictGet, hp, Ne.symm h, ih]

theorem dictSet_eq_of_get {α : Type} (m : List (String × α)) (k : String)
    (v : α) (h : dictGet m k = some v) : dictSet m k v = m := by
  induction m with
  | nil => simp [dictGet] at h
  | cons p rest ih =>
      obtain ⟨pk, pv⟩ := p
      by_cases hp : pk = k
      · simp [dictGet, hp] at h
        simp [dictSet, hp, h]
      · simp [dictGet, hp] at h
        simp [dictSet, hp, ih h]

theorem dictGet_dictSet_cases {α : Type} (m : List (String × α))
    (k k' : String) (v w : α) (h : dictGet (dictSet m k v) k' = some w) :
    (k' = k ∧ w = v) ∨ dictGet m k' = some w := by
  by_cases hk : k' = k
  · subst hk
    rw [dictGet_dictSet_self] at h
    exact Or.inl ⟨rfl, (Option.some_inj.mp h).symm⟩
  · exact Or.inr (by rwa [dictGet_dictSet_ne _ _ _ _ hk] at h)

theorem truthy_eq_some (x : Option String) (h : truthy x = true) :
    x = some (x.getD "") := by
  cases x with
  | none => simp [truthy] at h
  | some s => rfl

theorem dictSet_dictSet {α : Type} (m : List (String × α)) (k : String)
    (v v' : α) : dictSet (dictSet m k v) k v' = dictSet m k v' := by
  induction m with
  | nil => simp [dictSet]
  | cons p rest ih =>
      by_cases hp : p.1 = k <;> simp [dictSet, hp, ih]

theorem dictGet_dictSetIf_ne (cond : Bool) (m : List (String × String))
    (k k' v : String) (h : k' ≠ k) :
    dictGet (dictSetIf cond m k v) k' = dictGet m k' := by
  cases cond <;> simp [dictSetIf, dictGet_dictSet_ne _ _ _ _ h]

theorem dictGet_dictSetIf_self (cond : Bool) (m : List (String × String))
    (k v : String) :
    dictGet (dictSetIf cond m k v) k
      = if cond then some v else dictGet m k := by
  cases cond <;> simp [dictSetIf, dictGet_dictSet_self]

theorem dictSetIf_absorb (cond : Bool) (m : List (String × String))
    (k v : String) (h : cond = true → dictGet m k = some v) :
    dictSetIf cond m k v = m := by
  cases cond with
  | false => rfl
  | true => simp [dictSetIf, dictSet_eq_of_get _ _ _ (h rfl)]

theorem dictGet_dictSetIf_cases (cond : Bool) (m : List (String × String))
    (k0 k v0 v : String)
    (h : dictGet (dictSetIf cond m k0 v0) k = some v) :
    (cond = true ∧ k = k0 ∧ v = v0) ∨ dictGet m k = some v := by
  cases cond with
  | false => exact Or.inr h
  | true =>
      rcases dictGet_dictSet_cases _ _ _ _ _ h with ⟨hk, hv⟩ | h2
      · exact Or.inl ⟨rfl, hk, hv⟩
      · exact Or.inr h2

/-- Reading `ssl_ca` from the merged sub-map: the merged value when the CA
certificate is configured, the pre-existing value otherwise. -/
theorem mergedSsl_get_ca (s0 : List (String × String)) (ssl : SslConfig) :
    dictGet (mergedSsl s0 ssl) "ssl_ca"
      = if truthy ssl.caCertificate then some (ssl.caCertificate.getD "")
        else dictGet s0 "ssl_ca" := by
  have h1 : ("ssl_ca" : String) ≠ "ssl_key" := by decide
  have h2 : ("ssl_ca" : String) ≠ "ssl_cert" := by decide
  unfold mergedSsl
  rw [dictGet_dictSetIf_ne _ _ _ _ _ h1, dictGet_dictSetIf_ne _ _ _ _ _ h2,
    dictGet_dictSetIf_self]

theorem mergedSsl_get_cert (s0 : List (String × String)) (ssl : SslConfig) :
    dictGet (mergedSsl s0 ssl) "ssl_cert"
      = if truthy ssl.sslCertificate then some (ssl.sslCertificate.getD "")
        else dictGet s0 "ssl_cert" := by
  have h1 : ("ssl_cert" : String) ≠ "ssl_key" := by decide
  have h2 : ("ssl_cert" : String) ≠ "ssl_ca" := by decide
  unfold mergedSsl
  rw [dictGet_dictSetIf_ne _ _ _ _ _ h1, dictGet_dictSetIf_self,
    dictGet_dictSetIf_ne _ _ _ _ _ h2]

theorem mergedSsl_get_key (s0 : List (String × String)) (ssl : SslConfig) :
    dictGet (mergedSsl s0 ssl) "ssl_key"
      = if truthy ssl.sslKey then some (ssl.sslKey.getD "")
        else dictGet s0 "ssl_key" := by
  have h1 : ("ssl_key" : String) ≠ "ssl_cert" := by decide
  have h2 : ("ssl_key" : String) ≠ "ssl_ca" := by decide
  unfold mergedSsl
  rw [dictGet_dictSetIf_self, dictGet_dictSetIf_ne _ _ _ _ _ h1,
    dictGet_dictSetIf_ne _ _ _ _ _ h2]

/-- Keys other than the three TLS keys are untouched by the merge. -/
theorem mergedSsl_get_other (s0 : List (String × String)) (ssl : SslConfig)
    (k : String) (h1 : k ≠ "ssl_ca") (h2 : k ≠ "ssl_cert")
    (h3 : k ≠ "ssl_key") :
    dictGet (mergedSsl s0 ssl) k = dictGet s0 k := by
  unfold mergedSsl
  rw [dictGet_dictSetIf_ne _ _ _ _ _ h3, dictGet_dictSetIf_ne _ _ _ _ _ h2,
    dictGet_dictSetIf_ne _ _ _ _ _ h1]

/-- Every entry of the merged sub-map is a configured TLS field or a
pre-existing entry. -/
theorem mergedSsl_get_mem_cases (s0 : List (String × String))
    (ssl : SslConfig) (k v : String)
    (h : dictGet (mergedSsl s0 ssl) k = some v) :
    (k = "ssl_ca" ∧ truthy ssl.caCertificate = true
      ∧ ssl.caCertificate = some v) ∨
    (k = "ssl_cert" ∧ truthy ssl.sslCertificate = true
      ∧ ssl.sslCertificate = some v) ∨
    (k = "ssl_key" ∧ truthy ssl.sslKey = true ∧ ssl.sslKey = some v) ∨
    dictGet s0 k = some v := by
  unfold mergedSsl at h
  rcases dictGet_dictSetIf_cases _ _ _ _ _ _ h with ⟨hc, hk, hv⟩ | h
  · exact Or.inr (Or.inr (Or.inl ⟨hk, hc, hv ▸ truthy_eq_some _ hc⟩))
  rcases dictGet_dictSetIf_cases _ _ _ _ _ _ h with ⟨hc, hk, hv⟩ | h
  · exact Or.inr (Or.inl ⟨hk, hc, hv ▸ truthy_eq_some _ hc⟩)
  rcases dictGet_dictSetIf_cases _ _ _ _ _ _ h with ⟨hc, hk, hv⟩ | h
  · exact Or.inl ⟨hk, hc, hv ▸ truthy_eq_some _ hc⟩
  · exact Or.inr (Or.inr (Or.inr h))

/-- Merging into an already-merged sub-map changes nothing. -/
theorem mergedSsl_idem (s0 : List (String × String)) (ssl : SslConfig) :
    mergedSsl (mergedSsl s0 ssl) ssl = mergedSsl s0 ssl := by
  have hca : dictSetIf (truthy ssl.caCertificate) (mergedSsl s0 ssl)
      "ssl_ca" (ssl.caCertificate.getD "") = mergedSsl s0 ssl :=
    dictSetIf_absorb _ _ _ _
      (fun h => by rw [mergedSsl_get_ca, h]; simp)
  have hcert : dictSetIf (truthy ssl.sslCertificate) (mergedSsl s0 ssl)
      "ssl_cert" (ssl.sslCertificate.getD "") = mergedSsl s0 ssl :=
    dictSetIf_absorb _ _ _ _
      (fun h => by rw [mergedSsl_get_cert, h]; simp)
  have hkey : dictSetIf (truthy ssl.sslKey) (mergedSsl s0 ssl)
      "ssl_key" (ssl.sslKey.getD "") = mergedSsl s0 ssl :=
    dictSetIf_absorb _ _ _ _
      (fun h => by rw [mergedSsl_get_key, h]; simp)
  calc mergedSsl (mergedSsl s0 ssl) ssl
      = dictSetIf (truthy ssl.sslKey)
          (dictSetIf (truthy ssl.sslCertificate)
            (dictSetIf (truthy ssl.caCertificate) (mergedSsl s0 ssl)
              "ssl_ca" (ssl.caCertificate.getD ""))
            "ssl_cert" (ssl.sslCertificate.getD ""))
          "ssl_key" (ssl.sslKey.getD "") := rfl
    _ = mergedSsl s0 ssl := by rw [hca, hcert, hkey]

/-- The merge step never changes the TLS bundle itself. -/
theorem mergeSslArgs_ssl (c : DorisConnection) :
    (mergeSslArgs c).ssl = c.ssl := by
  unfold mergeSslArgs
  split <;> rfl

/-- Explicit form of the merge step when some TLS field is configured. -/
theorem mergeSslArgs_eq (c : DorisConnection)
    (htls : (truthy c.ssl.caCertificate || truthy c.ssl.sslCertificate
      || truthy c.ssl.sslKey) = true) :
    mergeSslArgs c
      = { c with
          connectionArguments :=
            some (dictSet (c.connectionArguments.getD []) "ssl"
              (ArgValue.dict (mergedSsl (sslMapOf c) c.ssl))) } := by
  cases h : c.connectionArguments <;>
    simp [mergeSslArgs, htls, h, init_empty_connection_arguments, sslMapOf]

/-- The merge step when no TLS field is configured: the identity. -/
theorem mergeSslArgs_of_no_tls (c : DorisConnection)
    (htls : (truthy c.ssl.caCertificate || truthy c.ssl.sslCertificate
      || truthy c.ssl.sslKey) = false) :
    mergeSslArgs c = c := by
  simp [mergeSslArgs, htls]

/-- The `"ssl"` sub-map after the merge is `mergedSsl` of the one before. -/
theorem sslMapOf_mergeSslArgs (c : DorisConnection)
    (htls : (truthy c.ssl.caCertificate || truthy c.ssl.sslCertificate
      || truthy c.ssl.sslKey) = true) :
    sslMapOf (mergeSslArgs c) = mergedSsl (sslMapOf c) c.ssl := by
  rw [sslMapOf, mergeSslArgs_eq c htls]
  simp [getSslArgs, dictGet_dictSet_self]

/-! ## Claims about the Trino sampler -/

/-- C1: if no column of the table (apart from the random-label column) has a
type in `FLOAT_SET`, `_base_sample_query` returns the projection query with
an empty where-disjunction, i.e. unfiltered. -/
theorem C1_no_float_columns_unfiltered (t : Table) (column : Option Column)
    (label : Option String)
    (h : ∀ c ∈ t.columns, c.name ≠ RANDOM_LABEL → c.type ∉ FLOAT_SET) :
    (base_sample_query t column label).whereClauses = [] := by
  unfold base_sample_query
  cases column <;>
  · simp_all [SampleQuery.whereOr, clientQuery, sqlOr, List.filter_filter,
      List.filter_eq_nil_iff]
    intro a ha hft
    exact Classical.byContradiction fun hne => h a ha hne hft

/-- Witness for C1 at a concrete table with one integer and one varchar
column plus the random-label column (typed varchar). -/
theorem C1_no_float_columns_unfiltered_witness :
    (∀ c ∈ (Table.mk "t" [Column.mk "id" "Integer", Column.mk "s" "Varchar",
        Column.mk RANDOM_LABEL "Varchar"]).columns,
      c.name ≠ RANDOM_LABEL → c.type ∉ FLOAT_SET) ∧
    (base_sample_query
      (Table.mk "t" [Column.mk "id" "Integer", Column.mk "s" "Varchar",
        Column.mk RANDOM_LABEL "Varchar"]) none none).whereClauses = [] := by
  refine ⟨by decide, C1_no_float_columns_unfiltered _ none none (by decide)⟩

/-- C2: for a table whose columns are float-typed `a` and `b` plus the
random-label column (whatever its type, float included), the filter is
exactly the inclusive-or of `is_nan(a) = False` and `is_nan(b) = False`,
never mentioning the random-label column; a row with `a` NaN and `b` valid
passes, a row with both NaN is excluded. -/
theorem C2_two_float_columns_filter (ca cb cr : Column) (column : Option Column)
    (label : Option String)
    (hca : ca.type ∈ FLOAT_SET) (hcb : cb.type ∈ FLOAT_SET)
    (hna : ca.name ≠ RANDOM_LABEL) (hnb : cb.name ≠ RANDOM_LABEL)
    (hr : cr.name = RANDOM_LABEL) (hab : ca.name ≠ cb.name) :
    (base_sample_query (Table.mk "t" [ca, cb, cr]) column label).whereClauses
        = [NanClause.mk ca.name, NanClause.mk cb.name] ∧
    (∀ row : String → Bool, row ca.name = true → row cb.name = false →
      (base_sample_query (Table.mk "t" [ca, cb, cr]) column label).rowPasses row
        = true) ∧
    (∀ row : String → Bool, row ca.name = true → row cb.name = true →
      (base_sample_query (Table.mk "t" [ca, cb, cr]) column label).rowPasses row
        = false) := by
  have hcl : (base_sample_query (Table.mk "t" [ca, cb, cr]) column label).whereClauses
      = [NanClause.mk ca.name, NanClause.mk cb.name] := by
    unfold base_sample_query
    cases column <;>
      simp_all [SampleQuery.whereOr, clientQuery, sqlOr, List.filter]
  refine ⟨hcl, ?_, ?_⟩
  · intro row hra hrb
    simp [SampleQuery.rowPasses, hcl, NanClause.eval, hra, hrb]
  · intro row hra hrb
    simp [SampleQuery.rowPasses, hcl, NanClause.eval, hra, hrb]

/-- Witness for C2 at concrete columns `a : Float`, `b : Double` and a
float-typed random-label column, with a whole-table projection. -/
theorem C2_two_float_columns_filter_witness :
    (base_sample_query
      (Table.mk "t" [Column.mk "a" "Float", Column.mk "b" "Double",
        Column.mk RANDOM_LABEL "Float"]) none none).whereClauses
      = [NanClause.mk "a", NanClause.mk "b"] := by
  exact (C2_two_float_columns_filter (Column.mk "a" "Float")
    (Column.mk "b" "Double") (Column.mk RANDOM_LABEL "Float") none none
    (by decide) (by decide) (by decide) (by decide) (by decide) (by decide)).1

/-- C5: the entity of the query is the whole table when `column` is null and
the given column otherwise, and `label` is passed through to the projection
in both cases. -/
theorem C5_entity_and_label (t : Table) (column : Option Column)
    (label : Option String) :
    (base_sample_query t column label).entity
        = (match column with
           | none => Entity.table t
           | some c => Entity.column c) ∧
    (base_sample_query t column label).label = label := by
  cases column <;> simp [base_sample_query, SampleQuery.whereOr, clientQuery]

/-- C9: constructing a `TrinoSampler` sets the dialect's JSON
deserialization hook to `None`, and the patch is idempotent: constructing
`n + 1` samplers leaves the dialect in the same state as constructing one. -/
theorem C9_dialect_patch_idempotent (d : TrinoDialect) (n : Nat) :
    (trinoSamplerInit d).json_deserializer = none ∧
    Nat.iterate trinoSamplerInit (n + 1) d = trinoSamplerInit d := by
  refine ⟨rfl, ?_⟩
  induction n with
  | zero => rfl
  | succ k ih =>
      rw [Function.iterate_succ_apply, trinoSamplerInit]
      simpa [trinoSamplerInit] using ih

/-- C10: the where-disjunction depends only on the table: it is the same for
every pair of `column` arguments (null included) and every pair of labels. -/
theorem C10_filter_independent_of_column (t : Table)
    (c1 c2 : Option Column) (l1 l2 : Option String) :
    (base_sample_query t c1 l1).whereClauses
      = (base_sample_query t c2 l2).whereClauses := by
  cases c1 <;> cases c2 <;> rfl

/-! ## Claims about the Doris connection builder -/

/-- C3: with at least one TLS field configured, `get_connection` makes the
connection-arguments map non-null, writes the merged sub-map back under
`"ssl"`, sets each of `ssl_ca`/`ssl_cert`/`ssl_key` exactly when the
corresponding field is present (an absent field's entry is whatever the
pre-existing sub-map had), and delegates engine construction to the generic
builder with the common URL and args builders. -/
theorem C3_ssl_merge_and_delegate (c : DorisConnection)
    (htls : (truthy c.ssl.caCertificate || truthy c.ssl.sslCertificate
      || truthy c.ssl.sslKey) = true)
    ( _hok : sslEntryIsDict c.connectionArguments = true) :
    ((get_connection c).1.connectionArguments).isSome = true ∧
    dictGet ((get_connection c).1.connectionArguments.getD []) "ssl"
      = some (ArgValue.dict (sslMapOf (get_connection c).1)) ∧
    (truthy c.ssl.caCertificate = true →
      dictGet (sslMapOf (get_connection c).1) "ssl_ca"
        = c.ssl.caCertificate) ∧
    (truthy c.ssl.caCertificate = false →
      dictGet (sslMapOf (get_connection c).1) "ssl_ca"
        = dictGet (sslMapOf c) "ssl_ca") ∧
    (truthy c.ssl.sslCertificate = true →
      dictGet (sslMapOf (get_connection c).1) "ssl_cert"
        = c.ssl.sslCertificate) ∧
    (truthy c.ssl.sslCertificate = false →
      dictGet (sslMapOf (get_connection c).1) "ssl_cert"
        = dictGet (sslMapOf c) "ssl_cert") ∧
    (truthy c.ssl.sslKey = true →
      dictGet (sslMapOf (get_connection c).1) "ssl_key" = c.ssl.sslKey) ∧
    (truthy c.ssl.sslKey = false →
      dictGet (sslMapOf (get_connection c).1) "ssl_key"
        = dictGet (sslMapOf c) "ssl_key") ∧
    (get_connection c).2 = create_generic_db_connection (get_connection c).1
      get_connection_url_common get_connection_args_common := by
  have h1 : (get_connection c).1 = mergeSslArgs c := rfl
  have hm := sslMapOf_mergeSslArgs c htls
  refine ⟨?_, ?_, ?_, ?_, ?_, ?_, ?_, ?_, ?_⟩
  · rw [h1, mergeSslArgs_eq c htls]
    rfl
  · rw [h1, mergeSslArgs_eq c htls]
    simp [sslMapOf, getSslArgs, dictGet_dictSet_self]
  · intro h
    rw [h1, hm, mergedSsl_get_ca, h]
    simpa using (truthy_eq_some _ h).symm
  · intro h
    rw [h1, hm, mergedSsl_get_ca, h]
    simp
  · intro h
    rw [h1, hm, mergedSsl_get_cert, h]
    simpa using (truthy_eq_some _ h).symm
  · intro h
    rw [h1, hm, mergedSsl_get_cert, h]
    simp
  · intro h
    rw [h1, hm, mergedSsl_get_key, h]
    simpa using (truthy_eq_some _ h).symm
  · intro h
    rw [h1, hm, mergedSsl_get_key, h]
    simp
  · rfl

/-- Witness for C3 at a descriptor with only a CA certificate and no
pre-existing connection arguments. -/
theorem C3_ssl_merge_and_delegate_witness :
    ((get_connection
      ⟨⟨some "CA", none, none⟩, none⟩).1.connectionArguments).isSome
      = true := by
  exact (C3_ssl_merge_and_delegate ⟨⟨some "CA", none, none⟩, none⟩
    (by decide) (by decide)).1

/-- C4 counterexample: for a descriptor whose connection arguments already
hold an `"ssl"` sub-map with the unrelated entry `foo ↦ bar`, the merge
keeps that entry, so the resulting `"ssl"` map is not populated only with
the present TLS fields, contrary to the claim. -/
theorem C4_counterexample :
    dictGet (sslMapOf (get_connection
      ⟨⟨some "CA", none, none⟩,
        some [("ssl", ArgValue.dict [("foo", "bar")])]⟩).1) "foo"
      = some "bar" ∧
    "foo" ∉ (["ssl_ca", "ssl_cert", "ssl_key"] : List String) := by
  constructor
  · decide
  · decide

/-- C4 (amended): with at least one TLS field configured, the resulting
connection-arguments map exists, its `"ssl"` sub-map holds each configured
TLS field under the corresponding key, and every entry of the `"ssl"`
sub-map is either a configured TLS field or an entry the pre-existing
`"ssl"` sub-map already had — in particular, when there was no pre-existing
`"ssl"` sub-map, the `"ssl"` map is populated only with the TLS fields that
are actually present. -/
theorem C4_amended_ssl_invariant (c : DorisConnection)
    (htls : (truthy c.ssl.caCertificate || truthy c.ssl.sslCertificate
      || truthy c.ssl.sslKey) = true)
    ( _hok : sslEntryIsDict c.connectionArguments = true) :
    ((get_connection c).1.connectionArguments).isSome = true ∧
    (truthy c.ssl.caCertificate = true →
      dictGet (sslMapOf (get_connection c).1) "ssl_ca"
        = c.ssl.caCertificate) ∧
    (truthy c.ssl.sslCertificate = true →
      dictGet (sslMapOf (get_connection c).1) "ssl_cert"
        = c.ssl.sslCertificate) ∧
    (truthy c.ssl.sslKey = true →
      dictGet (sslMapOf (get_connection c).1) "ssl_key" = c.ssl.sslKey) ∧
    (∀ k v, dictGet (sslMapOf (get_connection c).1) k = some v →
      (k = "ssl_ca" ∧ c.ssl.caCertificate = some v) ∨
      (k = "ssl_cert" ∧ c.ssl.sslCertificate = some v) ∨
      (k = "ssl_key" ∧ c.ssl.sslKey = some v) ∨
      dictGet (sslMapOf c) k = some v) ∧
    (dictGet (c.connectionArguments.getD []) "ssl" = none →
      ∀ k v, dictGet (sslMapOf (get_connection c).1) k = some v →
        (k = "ssl_ca" ∧ c.ssl.caCertificate = some v) ∨
        (k = "ssl_cert" ∧ c.ssl.sslCertificate = some v) ∨
        (k = "ssl_key" ∧ c.ssl.sslKey = some v)) := by
  have h1 : (get_connection c).1 = mergeSslArgs c := rfl
  have hm := sslMapOf_mergeSslArgs c htls
  have hcases : ∀ k v, dictGet (sslMapOf (get_connection c).1) k = some v →
      (k = "ssl_ca" ∧ c.ssl.caCertificate = some v) ∨
      (k = "ssl_cert" ∧ c.ssl.sslCertificate = some v) ∨
      (k = "ssl_key" ∧ c.ssl.sslKey = some v) ∨
      dictGet (sslMapOf c) k = some v := by
    intro k v h
    rw [h1, hm] at h
    rcases mergedSsl_get_mem_cases _ _ _ _ h with
      ⟨hk, _, hv⟩ | ⟨hk, _, hv⟩ | ⟨hk, _, hv⟩ | h0
    · exact Or.inl ⟨hk, hv⟩
    · exact Or.inr (Or.inl ⟨hk, hv⟩)
    · exact Or.inr (Or.inr (Or.inl ⟨hk, hv⟩))
    · exact Or.inr (Or.inr (Or.inr h0))
  refine ⟨?_, ?_, ?_, ?_, hcases, ?_⟩
  · rw [h1, mergeSslArgs_eq c htls]
    rfl
  · intro h
    rw [h1, hm, mergedSsl_get_ca, h]
    simpa using (truthy_eq_some _ h).symm
  · intro h
    rw [h1, hm, mergedSsl_get_cert, h]
    simpa using (truthy_eq_some _ h).symm
  · intro h
    rw [h1, hm, mergedSsl_get_key, h]
    simpa using (truthy_eq_some _ h).symm
  · intro hnone k v h
    have hempty : sslMapOf c = [] := by
      rw [sslMapOf, getSslArgs, hnone]
    rcases hcases k v h with h0 | h0 | h0 | h0
    · exact Or.inl h0
    · exact Or.inr (Or.inl h0)
    · exact Or.inr (Or.inr h0)
    · rw [hempty] at h0
      simp [dictGet] at h0

/-- Witness for C4 (amended) at a descriptor with only a CA certificate and
no pre-existing connection arguments. -/
theorem C4_amended_ssl_invariant_witness :
    ((get_connection
      ⟨⟨some "CA", none, none⟩, none⟩).1.connectionArguments).isSome
      = true := by
  exact (C4_amended_ssl_invariant ⟨⟨some "CA", none, none⟩, none⟩
    (by decide) (by decide)).1

/-- C6: with no TLS field configured, `get_connection` neither creates nor
mutates the connection-arguments map, and the descriptor reaches the
generic builder unchanged. -/
theorem C6_no_tls_no_mutation (c : DorisConnection)
    (hca : truthy c.ssl.caCertificate = false)
    (hcert : truthy c.ssl.sslCertificate = false)
    (hkey : truthy c.ssl.sslKey = false) :
    (get_connection c).1 = c ∧
    (get_connection c).1.connectionArguments = c.connectionArguments ∧
    (get_connection c).2 = create_generic_db_connection c
      get_connection_url_common get_connection_args_common := by
  have hm : mergeSslArgs c = c :=
    mergeSslArgs_of_no_tls c (by simp [hca, hcert, hkey])
  have h1 : (get_connection c).1 = mergeSslArgs c := rfl
  refine ⟨by rw [h1, hm], by rw [h1, hm], ?_⟩
  show create_generic_db_connection (mergeSslArgs c)
    get_connection_url_common get_connection_args_common = _
  rw [hm]

/-- Witness for C6 at a descriptor whose TLS fields are null or empty
(an empty certificate string is falsy, i.e. "not configured"). -/
theorem C6_no_tls_no_mutation_witness :
    (get_connection
      (⟨⟨none, some "", none⟩, none⟩ : DorisConnection)).1
      = ⟨⟨none, some "", none⟩, none⟩ := by
  exact (C6_no_tls_no_mutation ⟨⟨none, some "", none⟩, none⟩
    (by decide) (by decide) (by decide)).1

/-- C7: with all three TLS fields configured, the resulting `"ssl"` sub-map
binds `ssl_ca`, `ssl_cert`, `ssl_key` to the three fields, and every key of
the connection-arguments map other than `"ssl"` keeps its original value. -/
theorem C7_all_tls_frame (c : DorisConnection)
    (hca : truthy c.ssl.caCertificate = true)
    (hcert : truthy c.ssl.sslCertificate = true)
    (hkey : truthy c.ssl.sslKey = true)
    ( _hok : sslEntryIsDict c.connectionArguments = true) :
    dictGet (sslMapOf (get_connection c).1) "ssl_ca"
      = c.ssl.caCertificate ∧
    dictGet (sslMapOf (get_connection c).1) "ssl_cert"
      = c.ssl.sslCertificate ∧
    dictGet (sslMapOf (get_connection c).1) "ssl_key" = c.ssl.sslKey ∧
    ∀ k, k ≠ "ssl" →
      dictGet ((get_connection c).1.connectionArguments.getD []) k
        = dictGet (c.connectionArguments.getD []) k := by
  have htls : (truthy c.ssl.caCertificate || truthy c.ssl.sslCertificate
      || truthy c.ssl.sslKey) = true := by simp [hca]
  have h1 : (get_connection c).1 = mergeSslArgs c := rfl
  have hm := sslMapOf_mergeSslArgs c htls
  refine ⟨?_, ?_, ?_, ?_⟩
  · rw [h1, hm, mergedSsl_get_ca, hca]
    simpa using (truthy_eq_some _ hca).symm
  · rw [h1, hm, mergedSsl_get_cert, hcert]
    simpa using (truthy_eq_some _ hcert).symm
  · rw [h1, hm, mergedSsl_get_key, hkey]
    simpa using (truthy_eq_some _ hkey).symm
  · intro k hk
    rw [h1, mergeSslArgs_eq c htls]
    simpa using dictGet_dictSet_ne _ _ _ _ hk

/-- Witness for C7 at a descriptor with all three TLS fields and
pre-existing connection arguments holding an unrelated entry and an
`"ssl"` sub-map with an unrelated key. -/
theorem C7_all_tls_frame_witness :
    dictGet (sslMapOf (get_connection
      ⟨⟨some "CA", some "CERT", some "KEY"⟩,
        some [("extra", ArgValue.str "v"),
          ("ssl", ArgValue.dict [("other", "x")])]⟩).1) "ssl_ca"
      = some "CA" := by
  exact (C7_all_tls_frame
    ⟨⟨some "CA", some "CERT", some "KEY"⟩,
      some [("extra", ArgValue.str "v"),
        ("ssl", ArgValue.dict [("other", "x")])]⟩
    (by decide) (by decide) (by decide) (by decide)).1

/-- C8: the TLS-merging step is idempotent: a second run reproduces the same
`"ssl"` map contents (indeed the very same descriptor) as one run. -/
theorem C8_merge_idempotent (c : DorisConnection)
    ( _hok : sslEntryIsDict c.connectionArguments = true) :
    sslMapOf (mergeSslArgs (mergeSslArgs c)) = sslMapOf (mergeSslArgs c) ∧
    mergeSslArgs (mergeSslArgs c) = mergeSslArgs c := by
  have key : mergeSslArgs (mergeSslArgs c) = mergeSslArgs c := by
    rcases Bool.eq_false_or_eq_true (truthy c.ssl.caCertificate
        || truthy c.ssl.sslCertificate || truthy c.ssl.sslKey) with
      htls | htls
    · rw [mergeSslArgs_eq c htls]
      rw [mergeSslArgs_eq
        { c with connectionArguments := some (dictSet
            (c.connectionArguments.getD []) "ssl"
            (ArgValue.dict (mergedSsl (sslMapOf c) c.ssl))) } htls]
      simp [sslMapOf, getSslArgs, dictGet_dictSet_self, mergedSsl_idem,
        dictSet_dictSet]
    · rw [mergeSslArgs_of_no_tls c htls, mergeSslArgs_of_no_tls c htls]
  exact ⟨by rw [key], key⟩

/-- Witness for C8 at a descriptor with a CA certificate and a pre-existing
unrelated connection argument. -/
theorem C8_merge_idempotent_witness :
    mergeSslArgs (mergeSslArgs
      ⟨⟨some "CA", none, none⟩, some [("extra", ArgValue.str "v")]⟩)
      = mergeSslArgs
        ⟨⟨some "CA", none, none⟩, some [("extra", ArgValue.str "v")]⟩ := by
  exact (C8_merge_idempotent
    ⟨⟨some "CA", none, none⟩, some [("extra", ArgValue.str "v")]⟩
    (by decide)).2

end OpenMetadata
